import Mathlib

/-!
Verification of the browser-agent core (selector resolver, action library,
page extractor, security guard, context manager, tool executor, agent loop)
against its natural-language specification.

The TypeScript sources are shallowly embedded: pure string manipulation is
modelled over `List Char` (JS string indexing), fallible external calls
(Playwright page operations, `JSON.parse`, the LLM) are modelled as explicit
outcome parameters, and stateful classes become explicit state records.
-/

/- ───────────────────────── character classes (JS regex semantics) ──────── -/

/-- JS `\w` character class: `[A-Za-z0-9_]`. -/
def isWordChar (c : Char) : Bool :=
  c.isAlpha || c.isDigit || c = '_'

/-- JS `\s` character class (the members that can occur in our inputs):
space, tab, newline, carriage return, vertical tab, form feed, NBSP. -/
def isSpaceJS (c : Char) : Bool :=
  c = ' ' || c = '\t' || c = '\n' || c = '\r' ||
  c = Char.ofNat 11 || c = Char.ofNat 12 || c = Char.ofNat 160

/-- JS `toLowerCase` restricted to the alphabets used by the sources:
ASCII `A`-`Z` and Cyrillic `А`-`Я` / `Ё`. -/
def toLowerJS (c : Char) : Char :=
  if 'A' ≤ c ∧ c ≤ 'Z' then Char.ofNat (c.toNat + 32)
  else if 0x410 ≤ c.toNat ∧ c.toNat ≤ 0x42F then Char.ofNat (c.toNat + 32)
  else if c.toNat = 0x401 then Char.ofNat 0x451
  else c

/-- Lowercase a character list (JS `s.toLowerCase()`). -/
def lowerChars (l : List Char) : List Char := l.map toLowerJS

/-- Substring test (JS `haystack.includes(needle)`). -/
def containsSub (needle : List Char) : List Char → Bool
  | [] => needle.isEmpty
  | l@(_ :: rest') => needle.isPrefixOf l || containsSub needle rest'

/- ─────────────────── PageExtractor.truncateToTokenBudget ───────────────── -/

/-- Index of the last `'\n'` in a character list (JS `lastIndexOf('\n')`,
with `none` playing the role of `-1`). -/
def lastNewlineIdx : List Char → Option Nat
  | [] => none
  | c :: rest =>
    match lastNewlineIdx rest with
    | some i => some (i + 1)
    | none => if c = '\n' then some 0 else none

/-- The suffix appended by `truncateToTokenBudget` when it cuts the content:
two newlines followed by the truncation sentinel. -/
def truncationNotice : List Char :=
  "\n\n[... content truncated due to length ...]".data

/-- `PageExtractor.truncateToTokenBudget` (src/unnamed/part_000, lines
532-545): cut the content to `tokenBudget * 4` characters, drop the final
partial line when the cut slice has a newline at a positive index, and
append the truncation notice. -/
def truncateToTokenBudget (tokenBudget : Nat) (content : List Char) : List Char :=
  let maxChars := tokenBudget * 4
  if content.length ≤ maxChars then content
  else
    let truncated := content.take maxChars
    let cleanTruncated :=
      match lastNewlineIdx truncated with
      | some i => if 0 < i then truncated.take i else truncated
      | none => truncated
    cleanTruncated ++ truncationNotice

theorem lastNewlineIdx_lt {l : List Char} {i : Nat} (h : lastNewlineIdx l = some i) :
    i < l.length := by
  induction l generalizing i with
  | nil => simp [lastNewlineIdx] at h
  | cons c rest ih =>
    simp only [lastNewlineIdx] at h
    cases hr : lastNewlineIdx rest with
    | some j =>
      rw [hr] at h
      injection h with h
      subst h
      have := ih hr
      simp only [List.length_cons]
      omega
    | none =>
      rw [hr] at h
      by_cases hc : c = '\n'
      · simp [hc] at h
        subst h
        simp
      · simp [hc] at h

theorem lastNewlineIdx_get {l : List Char} {i : Nat} (h : lastNewlineIdx l = some i) :
    l.getD i ' ' = '\n' := by
  induction l generalizing i with
  | nil => simp [lastNewlineIdx] at h
  | cons c rest ih =>
    simp only [lastNewlineIdx] at h
    cases hr : lastNewlineIdx rest with
    | some j =>
      rw [hr] at h
      injection h with h
      subst h
      simpa using ih hr
    | none =>
      rw [hr] at h
      by_cases hc : c = '\n'
      · simp [hc] at h
        subst h
        simpa using hc
      · simp [hc] at h

theorem lastNewlineIdx_none {l : List Char} (h : lastNewlineIdx l = none) :
    ∀ j, j < l.length → l.getD j ' ' ≠ '\n' := by
  induction l with
  | nil => intro j hj; simp at hj
  | cons c rest ih =>
    simp only [lastNewlineIdx] at h
    cases hr : lastNewlineIdx rest with
    | some k => rw [hr] at h; exact Option.noConfusion h
    | none =>
      rw [hr] at h
      by_cases hc : c = '\n'
      · simp [hc] at h
      · intro j hj
        match j with
        | 0 => simpa [List.getD] using hc
        | j + 1 =>
          simp only [List.length_cons] at hj
          simpa [List.getD] using ih hr j (by omega)

theorem lastNewlineIdx_maximal {l : List Char} {i : Nat}
    (h : lastNewlineIdx l = some i) :
    ∀ j, i < j → j < l.length → l.getD j ' ' ≠ '\n' := by
  induction l generalizing i with
  | nil => simp [lastNewlineIdx] at h
  | cons c rest ih =>
    simp only [lastNewlineIdx] at h
    cases hr : lastNewlineIdx rest with
    | some k =>
      rw [hr] at h
      injection h with h
      subst h
      intro j hij hjl
      match j, hij with
      | j + 1, hij =>
        simp only [List.length_cons] at hjl
        simpa [List.getD] using ih hr j (by omega) (by omega)
    | none =>
      rw [hr] at h
      by_cases hc : c = '\n'
      · simp [hc] at h
        subst h
        intro j hij hjl
        match j, hij with
        | j + 1, _ =>
          simp only [List.length_cons] at hjl
          simpa [List.getD] using lastNewlineIdx_none hr j (by omega)
      · simp [hc] at h

/-- C1 (amended): truncation keeps at most `tokenBudget * 4` characters of
content and appends the 43-character notice, so the output length is at most
`tokenBudget * 4 + truncationNotice.length`; untruncated content is returned
unchanged; when truncation occurs the output ends with the notice (whose
first character is a newline, so the sentinel is preceded by a newline
boundary), and if the cut slice contains a newline at a positive index the
kept text is exactly the content up to (and excluding) its last newline. -/
theorem truncateToTokenBudget_bounds (tb : Nat) (content : List Char) :
    (truncateToTokenBudget tb content).length ≤ tb * 4 + truncationNotice.length
    ∧ (content.length ≤ tb * 4 → truncateToTokenBudget tb content = content)
    ∧ (tb * 4 < content.length →
        truncationNotice <:+ truncateToTokenBudget tb content
        ∧ ∀ i, lastNewlineIdx (content.take (tb * 4)) = some i → 0 < i →
            truncateToTokenBudget tb content = content.take i ++ truncationNotice
            ∧ (content.take (tb * 4)).getD i ' ' = '\n'
            ∧ ∀ j, i < j → j < (content.take (tb * 4)).length →
                (content.take (tb * 4)).getD j ' ' ≠ '\n') := by
  by_cases hle : content.length ≤ tb * 4
  · refine ⟨?_, fun _ => ?_, fun hgt => absurd hle (not_le.mpr hgt)⟩
    · simp only [truncateToTokenBudget, if_pos hle]
      exact le_trans hle (Nat.le_add_right _ _)
    · simp [truncateToTokenBudget, if_pos hle]
  · have hgt : tb * 4 < content.length := not_le.mp hle
    have hlen_tr : (content.take (tb * 4)).length = tb * 4 := by
      simp [List.length_take]
      omega
    cases hln : lastNewlineIdx (content.take (tb * 4)) with
    | none =>
      have hres : truncateToTokenBudget tb content
          = content.take (tb * 4) ++ truncationNotice := by
        simp [truncateToTokenBudget, if_neg hle, hln]
      refine ⟨?_, fun h => absurd h hle, fun _ => ⟨?_, ?_⟩⟩
      · rw [hres, List.length_append, hlen_tr]
      · rw [hres]; exact List.suffix_append _ _
      · intro i hi; exact Option.noConfusion hi
    | some i =>
      have hilt : i < tb * 4 := by
        have := lastNewlineIdx_lt hln
        omega
      by_cases hi : 0 < i
      · have hres : truncateToTokenBudget tb content
            = (content.take (tb * 4)).take i ++ truncationNotice := by
          simp [truncateToTokenBudget, if_neg hle, hln, hi]
        have htk : (content.take (tb * 4)).take i = content.take i := by
          rw [List.take_take]
          congr 1
          omega
        refine ⟨?_, fun h => absurd h hle, fun _ => ⟨?_, ?_⟩⟩
        · rw [hres, List.length_append, htk, List.length_take]
          have : min i content.length ≤ tb * 4 := by omega
          omega
        · rw [hres]; exact List.suffix_append _ _
        · intro i' hi' hpos
          injection hi' with hi'
          subst hi'
          exact ⟨by rw [hres, htk], lastNewlineIdx_get hln,
            lastNewlineIdx_maximal hln⟩
      · have hres : truncateToTokenBudget tb content
            = content.take (tb * 4) ++ truncationNotice := by
          simp [truncateToTokenBudget, if_neg hle, hln, hi]
        refine ⟨?_, fun h => absurd h hle, fun _ => ⟨?_, ?_⟩⟩
        · rw [hres, List.length_append, hlen_tr]
        · rw [hres]; exact List.suffix_append _ _
        · intro i' hi' hpos
          injection hi' with hi'
          omega

/-- C1 (counterexample): with `tokenBudget = 1` and the 5-character
newline-free content `"abcde"`, the code keeps the full 4-character slice and
appends the 43-character notice, so the output has 47 characters — the
claimed bound `len(snapshot) ≤ tokenBudget * 4` is violated. -/
theorem truncateToTokenBudget_budget_cex :
    ¬ ((truncateToTokenBudget 1 ['a', 'b', 'c', 'd', 'e']).length ≤ 1 * 4) := by
  decide

/-- Witness for C1: the amended bound evaluated at `tokenBudget = 1` and
content `"ab\ncd\nef"` (truncation occurs; the slice has a newline at
index 2). -/
theorem truncateToTokenBudget_bounds_witness :
    1 * 4 < ("ab\ncd\nef".data).length
    ∧ truncationNotice <:+ truncateToTokenBudget 1 "ab\ncd\nef".data := by
  refine ⟨by decide, ?_⟩
  exact ((truncateToTokenBudget_bounds 1 "ab\ncd\nef".data).2.2 (by decide)).1

/- ───────────────────────────── SecurityGuard ───────────────────────────── -/

/-- `DESTRUCTIVE_KEYWORDS` (src/src/security/guard.ts, lines 10-19). -/
def destructiveKeywords : List String :=
  ["удалить", "удаление", "оплатить", "оплата", "отправить", "подтвердить",
   "купить", "заказать", "отменить", "отписаться", "перевести", "перевод",
   "подписать", "согласиться", "удалить аккаунт", "сбросить",
   "delete", "remove", "pay", "payment", "checkout", "submit", "send",
   "purchase", "buy", "order", "confirm", "cancel", "unsubscribe",
   "transfer", "sign", "agree", "delete account", "reset"]

/-- Case-insensitive alternation test: JS `/a|b|.../i.test(s)` where every
alternative is a plain lowercase word. -/
def regexAltTest (alternatives : List String) (s : String) : Bool :=
  alternatives.any fun a => containsSub a.data (lowerChars s.data)

/-- `DESTRUCTIVE_TOOL_PATTERNS` (guard.ts, lines 24-28), as
(tool, alternatives-of-the-case-insensitive-regex) pairs. -/
def destructiveToolPatterns : List (String × List String) :=
  [("click", ["удалить", "delete", "pay", "оплат", "submit", "отправ",
              "купить", "buy", "checkout", "заказ", "order", "confirm",
              "подтверд"]),
   ("press_key", ["enter"])]

/-- The page-context surfaces that make a context-keyword click destructive
(guard.ts, lines 104-110). -/
def destructiveSurfaceTest (contextLower : List Char) : Bool :=
  containsSub "checkout".data contextLower
  || containsSub "оплат".data contextLower
  || containsSub "корзин".data contextLower
  || containsSub "удален".data contextLower
  || containsSub "подтвержд".data contextLower

/-- `SecurityGuard.isDestructiveAction` (guard.ts, lines 83-118). -/
def isDestructiveAction (toolName argsStr pageContext : String) : Bool :=
  (destructiveToolPatterns.any fun p =>
    toolName = p.1 && regexAltTest p.2 argsStr)
  ||
  (if ["click", "type", "press_key", "select_option"].contains toolName then
    let contextLower := lowerChars pageContext.data
    let argsLower := lowerChars argsStr.data
    destructiveKeywords.any fun kw =>
      containsSub kw.data argsLower
      || (containsSub kw.data contextLower && toolName = "click"
          && destructiveSurfaceTest contextLower)
  else false)

/-- The auto-approved meta-tools (guard.ts, line 49). -/
def metaToolNames : List String :=
  ["read_page", "scroll", "wait", "ask_user", "done", "hover", "go_back",
   "navigate"]

/-- JS `answer.toLowerCase().startsWith('y')`. -/
def startsWithY (answer : String) : Bool :=
  match lowerChars answer.data with
  | 'y' :: _ => true
  | _ => false

/-- `SecurityGuard.checkAction` (guard.ts, lines 45-77). The user-confirm
callback is modelled by its answer string `confirmAnswer`; the returned pair
is (allowed, confirm-callback-invoked). -/
def checkAction (confirmAnswer toolName argsStr pageContext : String) :
    Bool × Bool :=
  if metaToolNames.contains toolName then (true, false)
  else if isDestructiveAction toolName argsStr pageContext then
    (startsWithY confirmAnswer, true)
  else (true, false)

/-- C7: for every tool call whose name is one of the eight meta-tools, and
for every page context and pending confirm answer, `checkAction` allows the
action and never invokes the user-confirm callback. -/
theorem checkAction_meta_auto_approved
    (confirmAnswer toolName argsStr pageContext : String)
    (h : toolName ∈ metaToolNames) :
    checkAction confirmAnswer toolName argsStr pageContext = (true, false) := by
  have hc : metaToolNames.contains toolName = true := by
    simpa using h
  unfold checkAction
  rw [if_pos hc]

/-- Witness for C7: `wait` on a checkout page with a refusing user is still
auto-approved without consulting the user. -/
theorem checkAction_meta_auto_approved_witness :
    "wait" ∈ metaToolNames
    ∧ checkAction "n" "wait" "5000" "Checkout (https://shop.example)"
        = (true, false) :=
  ⟨by decide,
   checkAction_meta_auto_approved "n" "wait" "5000"
     "Checkout (https://shop.example)" (by decide)⟩

/- ─────────────────────────── BrowserActions ────────────────────────────── -/

/-- Outcome of a single black-box Playwright page operation: it either
resolves, or rejects with an error message. -/
inductive PageOutcome where
  | ok
  | err (msg : String)
deriving DecidableEq

/-- `BrowserActions.wait` (src/unnamed/part_000, lines 245-249). The
requested sleep is `Math.min(ms, 10000)`. The body has **no** try/catch, so
a rejected `page.waitForTimeout` propagates to the caller — modelled by
`Except.error`. Returns (requested sleep duration, outcome). -/
def waitAction (ms : Int) (sleepOutcome : PageOutcome) :
    Int × Except String String :=
  let cappedMs := min ms 10000
  (cappedMs,
    match sleepOutcome with
    | PageOutcome.ok => Except.ok ("Waited " ++ toString cappedMs ++ "ms")
    | PageOutcome.err e => Except.error e)

/-- `BrowserActions.scroll` (part_000, lines 158-169): the whole body is
inside try/catch, so every failure is narrated, never thrown. `scrollY` is
the (rounded) scroll position reported by the page. -/
def scrollAction (direction : String) (outcome : PageOutcome) (scrollY : Int) :
    Except String String :=
  match outcome with
  | PageOutcome.ok =>
    Except.ok ("Scrolled " ++ direction ++ ". Current scroll position: "
      ++ toString scrollY ++ "px")
  | PageOutcome.err e => Except.ok ("Scroll failed: " ++ e)

/-- `BrowserActions.navigate` (part_000, lines 31-45): scheme added when
missing; the whole body is inside try/catch. `title` is the page title
reported after the load. -/
def navigateAction (url : String) (outcome : PageOutcome) (title : String) :
    Except String String :=
  let url2 :=
    if url.startsWith "http://" || url.startsWith "https://" then url
    else "https://" ++ url
  match outcome with
  | PageOutcome.ok =>
    Except.ok ("Navigated to " ++ url2 ++ " — page title: \"" ++ title ++ "\"")
  | PageOutcome.err e => Except.ok ("Navigation failed: " ++ e)

theorem scrollAction_never_throws (d : String) (o : PageOutcome) (y : Int) :
    ∃ s, scrollAction d o y = Except.ok s := by
  cases o <;> exact ⟨_, rfl⟩

theorem navigateAction_never_throws (u : String) (o : PageOutcome) (t : String) :
    ∃ s, navigateAction u o t = Except.ok s := by
  cases o <;> exact ⟨_, rfl⟩

/-- C2 (code bug): `wait` is the one action whose body is not wrapped in
try/catch; when the underlying `page.waitForTimeout` rejects (for example
because the page or browser was closed), the rejection propagates to the
caller instead of being narrated as a result string. -/
theorem wait_propagates_exception :
    (waitAction 500
      (PageOutcome.err "Target page, context or browser has been closed")).2
    = Except.error "Target page, context or browser has been closed" := rfl

/-- C8: for every argument `ms`, the requested sleep is exactly
`min ms 10000` milliseconds (for any outcome of the underlying timeout
call), and on success the returned string reports the clamped duration. -/
theorem wait_clamps_and_reports (ms : Int) (o : PageOutcome) :
    (waitAction ms o).1 = min ms 10000
    ∧ (waitAction ms PageOutcome.ok).2
        = Except.ok ("Waited " ++ toString (min ms 10000) ++ "ms") :=
  ⟨rfl, rfl⟩

/- ──────────────────────── BrowserAgent.isStuck ─────────────────────────── -/

/-- An entry of the agent loop's `recentActions` ring: the action descriptor
`"name(argsJson)"` and the URL the action was proposed on. -/
structure RecentAction where
  action : String
  url : String
deriving DecidableEq

/-- Default entry for in-bounds JS array indexing. -/
def raDummy : RecentAction := ⟨"", ""⟩

/-- The counting for-loop of `BrowserAgent.isStuck` check 2
(src/unnamed/part_004, lines 473-481), as a recursion on the loop counter:
a visit is counted at index `i` when the entry's url matches and `i` is `0`
or the predecessor entry has a different url. -/
def countVisitsUpTo (all : List RecentAction) (url : String) : Nat → Nat
  | 0 => 0
  | i + 1 =>
    countVisitsUpTo all url i +
      (if (all.getD i raDummy).url = url ∧
          (i = 0 ∨ (all.getD (i - 1) raDummy).url ≠ url)
       then 1 else 0)

/-- Visit count over the whole window. -/
def countVisits (all : List RecentAction) (url : String) : Nat :=
  countVisitsUpTo all url all.length

/-- `BrowserAgent.isStuck` (part_004, lines 456-489). Check 1: the last two
entries repeat the proposed (action, url). Check 2: at least three visits to
the proposed url in `recentActions ++ [proposed]`. -/
def isStuck (recentActions : List RecentAction)
    (currentAction currentUrl : String) : Bool :=
  if 2 ≤ recentActions.length ∧
     (recentActions.getD (recentActions.length - 1) raDummy).action
       = currentAction ∧
     (recentActions.getD (recentActions.length - 1) raDummy).url
       = currentUrl ∧
     (recentActions.getD (recentActions.length - 2) raDummy).action
       = currentAction ∧
     (recentActions.getD (recentActions.length - 2) raDummy).url
       = currentUrl
  then true
  else
    let allActions := recentActions ++ [⟨currentAction, currentUrl⟩]
    if 3 ≤ countVisits allActions currentUrl then true else false

/-- Specification-side visit count, following the claim's wording: a visit
to `url` is an entry with that url which is either the first entry of the
window or has a predecessor with a different url. `prev` is the url of the
predecessor entry (`none` at the head of the window). -/
def visitCountFrom (prev : Option String) (url : String) :
    List RecentAction → Nat
  | [] => 0
  | e :: rest =>
    (if e.url = url ∧ prev ≠ some url then 1 else 0)
      + visitCountFrom (some e.url) url rest

/-- The url of the entry preceding the end of `xs ++ …`: the last url of
`xs`, or `prev` when `xs` is empty. -/
def lastUrlOf (xs : List RecentAction) (prev : Option String) : Option String :=
  match xs.getLast? with
  | some x => some x.url
  | none => prev

theorem lastUrlOf_cons (x : RecentAction) (xs : List RecentAction)
    (prev : Option String) :
    lastUrlOf (x :: xs) prev = lastUrlOf xs (some x.url) := by
  cases xs with
  | nil => rfl
  | cons y ys =>
    simp only [lastUrlOf, List.getLast?_cons_cons]
    cases h : (y :: ys).getLast? with
    | none => simp at h
    | some z => rfl

theorem visitCountFrom_append_one (url : String) (e : RecentAction) :
    ∀ (xs : List RecentAction) (prev : Option String),
    visitCountFrom prev url (xs ++ [e])
      = visitCountFrom prev url xs
        + (if e.url = url ∧ lastUrlOf xs prev ≠ some url then 1 else 0) := by
  intro xs
  induction xs with
  | nil => intro prev; simp [visitCountFrom, lastUrlOf]
  | cons x xs ih =>
    intro prev
    simp only [List.cons_append, visitCountFrom, List.append_eq]
    rw [ih (some x.url), lastUrlOf_cons]
    omega

theorem countVisitsUpTo_eq_visitCountFrom (all : List RecentAction)
    (url : String) :
    ∀ n, n ≤ all.length →
      countVisitsUpTo all url n = visitCountFrom none url (all.take n) := by
  intro n
  induction n with
  | zero => intro _; simp [countVisitsUpTo, visitCountFrom]
  | succ n ih =>
    intro hn
    have hlt : n < all.length := by omega
    have hget : all[n]? = some (all.getD n raDummy) := by
      simp [List.getD_eq_getElem?_getD, List.getElem?_eq_getElem hlt]
    have htake : all.take (n + 1) = all.take n ++ [all.getD n raDummy] := by
      rw [List.take_succ, hget]
      rfl
    rw [countVisitsUpTo, ih (by omega), htake,
      visitCountFrom_append_one]
    congr 1
    by_cases hz : n = 0
    · subst hz
      simp [lastUrlOf]
    · have hn1 : n - 1 < n := by omega
      have hlast : (all.take n).getLast? = some (all.getD (n - 1) raDummy) := by
        rw [List.getLast?_eq_getElem?]
        have hlen : (all.take n).length = n := by
          simp [List.length_take]; omega
        rw [hlen, List.getElem?_take, if_pos hn1,
          List.getD_eq_getElem?_getD, List.getElem?_eq_getElem (by omega)]
        rfl
      have : lastUrlOf (all.take n) none
          = some (all.getD (n - 1) raDummy).url := by
        simp [lastUrlOf, hlast]
      rw [this]
      simp [hz]

theorem countVisits_eq_visitCountFrom (all : List RecentAction) (url : String) :
    countVisits all url = visitCountFrom none url all := by
  rw [countVisits, countVisitsUpTo_eq_visitCountFrom all url all.length
    (le_refl _), List.take_length]

/-- C5: if the window `recentActions ++ [proposed]` contains at least three
distinct visits to the proposed url (a visit being the first entry of the
window or an entry whose predecessor has a different url), then `isStuck`
flags the proposal. -/
theorem isStuck_oscillation (recent : List RecentAction) (a u : String)
    (h : 3 ≤ visitCountFrom none u (recent ++ [⟨a, u⟩])) :
    isStuck recent a u = true := by
  unfold isStuck
  split
  · rfl
  · show (if 3 ≤ countVisits (recent ++ [⟨a, u⟩]) u then true else false) = true
    rw [countVisits_eq_visitCountFrom]
    rw [if_pos h]

/-- Witness for C5: oscillating between urls `u` and `v`, the third re-entry
of `u` is flagged. -/
theorem isStuck_oscillation_witness :
    3 ≤ visitCountFrom none "u"
      ([⟨"click", "u"⟩, ⟨"nav", "v"⟩, ⟨"click", "u"⟩, ⟨"nav", "v"⟩]
        ++ [⟨"click", "u"⟩])
    ∧ isStuck [⟨"click", "u"⟩, ⟨"nav", "v"⟩, ⟨"click", "u"⟩, ⟨"nav", "v"⟩]
        "click" "u" = true :=
  ⟨by decide,
   isStuck_oscillation [⟨"click", "u"⟩, ⟨"nav", "v"⟩, ⟨"click", "u"⟩,
     ⟨"nav", "v"⟩] "click" "u" (by decide)⟩

/-- C6: when the last two recent entries already carry the proposed action
and url, the third consecutive occurrence is flagged by `isStuck`. -/
theorem isStuck_exact_repetition (pre : List RecentAction) (a u : String) :
    isStuck (pre ++ [⟨a, u⟩, ⟨a, u⟩]) a u = true := by
  unfold isStuck
  have hlen : (pre ++ [(⟨a, u⟩ : RecentAction), ⟨a, u⟩]).length
      = pre.length + 2 := by simp
  have h1 : (pre ++ [(⟨a, u⟩ : RecentAction), ⟨a, u⟩]).getD
      (pre.length + 1) raDummy = ⟨a, u⟩ := by
    simp [List.getD_eq_getElem?_getD,
      List.getElem?_append_right (by omega : pre.length ≤ pre.length + 1)]
  have h2 : (pre ++ [(⟨a, u⟩ : RecentAction), ⟨a, u⟩]).getD
      pre.length raDummy = ⟨a, u⟩ := by
    simp [List.getD_eq_getElem?_getD,
      List.getElem?_append_right (le_refl pre.length)]
  rw [if_pos]
  refine ⟨by omega, ?_, ?_, ?_, ?_⟩
  · rw [hlen]
    have : pre.length + 2 - 1 = pre.length + 1 := by omega
    rw [this, h1]
  · rw [hlen]
    have : pre.length + 2 - 1 = pre.length + 1 := by omega
    rw [this, h1]
  · rw [hlen]
    have : pre.length + 2 - 2 = pre.length := by omega
    rw [this, h2]
  · rw [hlen]
    have : pre.length + 2 - 2 = pre.length := by omega
    rw [this, h2]

/- ─────────────────── BrowserActions.resolveLocator ─────────────────────── -/

/-- JS `selector.replace(/^-\s+/, '')`: strip a leading dash plus its
whitespace run. -/
def stripDashLead : List Char → List Char
  | '-' :: c :: rest =>
    if isSpaceJS c then (c :: rest).dropWhile isSpaceJS
    else '-' :: c :: rest
  | l => l

/-- JS `/\bROOT\b/i.test(s)`: a case-insensitive occurrence of `root`
delimited by word boundaries on both sides. `prevWord` says whether the
character before the current position is a word character. -/
def rootScan (prevWord : Bool) : List Char → Bool
  | [] => false
  | c :: rest =>
    (if !prevWord && (toLowerJS c == 'r') then
      match rest with
      | o1 :: o2 :: t :: rest2 =>
        (toLowerJS o1 == 'o') && (toLowerJS o2 == 'o') && (toLowerJS t == 't')
          && (match rest2 with
              | [] => true
              | d :: _ => !isWordChar d)
      | _ => false
     else false)
    || rootScan (isWordChar c) rest

/-- JS `/^[A-Z]+\s*>\s*[A-Z]+/i.test(s)`: with the `i` flag the class is any
ASCII letter. The character classes of consecutive regex pieces are
disjoint, so maximal munch is exact. -/
def treePathTest (l : List Char) : Bool :=
  match l with
  | c :: rest =>
    if c.isAlpha then
      match (rest.dropWhile Char.isAlpha).dropWhile isSpaceJS with
      | '>' :: rest2 =>
        match rest2.dropWhile isSpaceJS with
        | d :: _ => d.isAlpha
        | [] => false
      | _ => false
    else false
  | [] => false

/-- Drop a maximal run of digits. -/
def dropDigits : List Char → List Char
  | [] => []
  | c :: rest => if c.isDigit then dropDigits rest else c :: rest

/-- JS `/\b\d+\b/.test(s)`: a maximal digit run flanked by word boundaries
(start/end of string or a non-word character). -/
def boundedNumScan (prevWord : Bool) : List Char → Bool
  | [] => false
  | c :: rest =>
    if c.isDigit && !prevWord then
      (match dropDigits rest with
       | [] => true
       | d :: _ => if isWordChar d then boundedNumScan true rest else true)
    else boundedNumScan (isWordChar c) rest

/-- The error message thrown for hallucinated tree-path selectors
(part_000, lines 309-313). -/
def invalidSelectorMsg (s : List Char) : List Char :=
  "Invalid selector \"".data ++ s ++
  ("\" — this looks like a tree hierarchy path, not a valid selector. "
    ++ "Use ARIA role+name format instead (e.g., button \"Submit\", "
    ++ "link \"Home\"). "
    ++ "Use read_page to see the actual element labels on the page.").data

/-- `BrowserActions.ARIA_ROLES` (part_000, lines 267-285). -/
def ariaRoles : List (List Char) :=
  (["alert", "alertdialog", "application", "article", "banner",
    "blockquote", "button", "caption", "cell", "checkbox",
    "code", "columnheader", "combobox", "complementary",
    "contentinfo", "definition", "deletion", "dialog",
    "directory", "document", "emphasis", "feed", "figure",
    "form", "generic", "grid", "gridcell", "group", "heading",
    "img", "insertion", "link", "list", "listbox", "listitem",
    "log", "main", "marquee", "math", "menu", "menubar",
    "menuitem", "menuitemcheckbox", "menuitemradio", "meter",
    "navigation", "none", "note", "option", "paragraph",
    "presentation", "progressbar", "radio", "radiogroup",
    "region", "row", "rowgroup", "rowheader", "scrollbar",
    "search", "searchbox", "separator", "slider", "spinbutton",
    "status", "strong", "subscript", "superscript", "switch",
    "tab", "table", "tablist", "tabpanel", "term", "textbox",
    "time", "timer", "toolbar", "tooltip", "tree", "treegrid",
    "treeitem"]).map String.data

/-- Maximal `\w+` run and the remainder. -/
def wordRun (l : List Char) : List Char × List Char :=
  (l.takeWhile isWordChar, l.dropWhile isWordChar)

/-- Maximal `\s+` run and the remainder. -/
def spaceRun (l : List Char) : List Char × List Char :=
  (l.takeWhile isSpaceJS, l.dropWhile isSpaceJS)

/-- All decompositions `l = before ++ '"' :: after`, leftmost first. -/
def quoteSplits : List Char → List (List Char × List Char)
  | [] => []
  | c :: rest =>
    let tails := (quoteSplits rest).map fun p => (c :: p.1, p.2)
    if c = '"' then ([], rest) :: tails else tails

/-- Continuation of the nested-selector regex after the closing quote of the
second group: `\s+(\w+)\s+"(.+)"$` (the groups cannot match a newline). -/
def parseNestedTail (l : List Char) : Option (List Char × List Char) :=
  let p1 := spaceRun l
  if p1.1.isEmpty then none
  else
    let p2 := wordRun p1.2
    if p2.1.isEmpty then none
    else
      let p3 := spaceRun p2.2
      if p3.1.isEmpty then none
      else
        match p3.2 with
        | '"' :: rest =>
          if 2 ≤ rest.length && (rest.getLast? == some '"')
             && !(rest.dropLast.contains '\n')
          then some (p2.1, rest.dropLast)
          else none
        | _ => none

/-- JS regex `^(\w+)\s+"(.+?)"\s+(\w+)\s+"(.+)"$` (resolveLocator step 0):
the lazy second group takes the leftmost viable closing quote. Returns
(parentRole, parentName, childRole, childName). -/
def nestedSelMatch (l : List Char) :
    Option (List Char × List Char × List Char × List Char) :=
  let p1 := wordRun l
  if p1.1.isEmpty then none
  else
    let p2 := spaceRun p1.2
    if p2.1.isEmpty then none
    else
      match p2.2 with
      | '"' :: rest =>
        match (quoteSplits rest).find? (fun p =>
          !p.1.isEmpty && !(p.1.contains '\n')
            && (parseNestedTail p.2).isSome) with
        | some p =>
          match parseNestedTail p.2 with
          | some (w2, n2) => some (p1.1, p.1, w2, n2)
          | none => none
        | none => none
      | _ => none

/-- The optional tail `(\s+\[.*\])?$` of the quoted ARIA regex. -/
def bracketTailOk (l : List Char) : Bool :=
  l.isEmpty ||
  (let p := spaceRun l
   !p.1.isEmpty &&
   (match p.2 with
    | '[' :: rest =>
      (rest.getLast? == some ']') && !(rest.dropLast.contains '\n')
    | _ => false))

/-- JS regex `^(\w+)\s+"(.+)"(\s+\[.*\])?$` (resolveLocator step 1): the
greedy second group takes the rightmost viable closing quote. Returns
(role, name). -/
def ariaQuotedMatch (l : List Char) : Option (List Char × List Char) :=
  let p1 := wordRun l
  if p1.1.isEmpty then none
  else
    let p2 := spaceRun p1.2
    if p2.1.isEmpty then none
    else
      match p2.2 with
      | '"' :: rest =>
        match ((quoteSplits rest).reverse).find? (fun p =>
          !p.1.isEmpty && !(p.1.contains '\n') && bracketTailOk p.2) with
        | some p => some (p1.1, p.1)
        | none => none
      | _ => none

/-- JS regex `^(\w+)\s+(.+)$` (resolveLocator, unquoted ARIA): greedy `\s+`
gives back one (non-newline) whitespace character when the name would
otherwise be empty. Returns (role, name). -/
def ariaNoQuoteMatch (l : List Char) : Option (List Char × List Char) :=
  let p1 := wordRun l
  if p1.1.isEmpty then none
  else
    let p2 := spaceRun p1.2
    if p2.1.isEmpty then none
    else
      match p2.2 with
      | [] =>
        match p2.1.getLast? with
        | some c =>
          if 2 ≤ p2.1.length && !(c == '\n') then some (p1.1, [c]) else none
        | none => none
      | _ => if p2.2.contains '\n' then none else some (p1.1, p2.2)

/-- The `['"]` character class. -/
def isQuoteChar (c : Char) : Bool := c = '\'' || c = '"'

/-- JS regex `^role=(\w+)(?:\[name=['"](.+)['"]\])?$` applied to a selector
that starts with `role=`. Returns (role, optional name). -/
def roleEqMatch (l : List Char) : Option (List Char × Option (List Char)) :=
  if "role=".data.isPrefixOf l then
    let p := wordRun (l.drop 5)
    if p.1.isEmpty then none
    else
      match p.2 with
      | [] => some (p.1, none)
      | r =>
        if "[name=".data.isPrefixOf r then
          match r.drop 6 with
          | q :: rest =>
            if isQuoteChar q then
              match rest.reverse with
              | ']' :: q2 :: grpRev =>
                if isQuoteChar q2 && !grpRev.isEmpty
                   && !(grpRev.contains '\n')
                then some (p.1, some grpRev.reverse)
                else none
              | _ => none
            else none
          | [] => none
        else none
  else none

/-- The locator abstraction produced by `resolveLocator`: which Playwright
locator constructor is invoked, with its arguments. -/
inductive Locator where
  | nestedRole (parentRole parentName childRole childName : List Char)
  | byRole (role : List Char) (name : Option (List Char))
  | byTextDefault (t : List Char)
  | byLabel (t : List Char)
  | byPlaceholder (t : List Char)
  | css (sel : List Char)
  | byTextFuzzy (t : List Char)
deriving DecidableEq

/-- The CSS heuristic `/[#.\[\]>:=@]/.test(s)` (resolveLocator step 6). -/
def cssCharTest (l : List Char) : Bool :=
  l.any fun c =>
    c = '#' || c = '.' || c = '[' || c = ']' || c = '>' || c = ':'
      || c = '=' || c = '@'

/-- resolveLocator steps 3-7: `text=` / `label=` / `placeholder=` prefixes,
CSS heuristic, plain-text fallback (part_000, lines 360-381). -/
def resolveTail (s : List Char) : Locator :=
  if "text=".data.isPrefixOf s then Locator.byTextDefault (s.drop 5)
  else if "label=".data.isPrefixOf s then Locator.byLabel (s.drop 6)
  else if "placeholder=".data.isPrefixOf s then
    Locator.byPlaceholder (s.drop 12)
  else if cssCharTest s then Locator.css s
  else Locator.byTextFuzzy s

/-- resolveLocator step 2: the explicit `role=` prefix (part_000, lines
349-358), falling through when its regex does not match. -/
def resolveByPrefixes (s : List Char) : Locator :=
  if "role=".data.isPrefixOf s then
    match roleEqMatch s with
    | some (role, name) => Locator.byRole role name
    | none => resolveTail s
  else resolveTail s

/-- resolveLocator unquoted-ARIA branch (part_000, lines 340-347). -/
def resolveAriaNoQuote (s : List Char) : Locator :=
  match ariaNoQuoteMatch s with
  | some (role, name) =>
    if ariaRoles.contains (lowerChars role) && !(name.contains '=')
    then Locator.byRole (lowerChars role) (some name)
    else resolveByPrefixes s
  | none => resolveByPrefixes s

/-- resolveLocator quoted-ARIA branch (part_000, lines 330-338). -/
def resolveAriaQuoted (s : List Char) : Locator :=
  match ariaQuotedMatch s with
  | some (role, name) =>
    if ariaRoles.contains (lowerChars role)
    then Locator.byRole (lowerChars role) (some name)
    else resolveAriaNoQuote s
  | none => resolveAriaNoQuote s

/-- resolveLocator step 0: nested ARIA scope (part_000, lines 316-328),
falling through to the later steps. -/
def resolveByAria (s : List Char) : Locator :=
  match nestedSelMatch s with
  | some (w1, n1, w2, n2) =>
    if ariaRoles.contains (lowerChars w1)
       && ariaRoles.contains (lowerChars w2)
    then Locator.nestedRole (lowerChars w1) n1 (lowerChars w2) n2
    else resolveAriaQuoted s
  | none => resolveAriaQuoted s

/-- `BrowserActions.resolveLocator` (part_000, lines 302-382): strip the
YAML dash, reject hallucinated tree-path selectors, then try the resolution
strategies in order. -/
def resolveLocator (selector : List Char) : Except (List Char) Locator :=
  if rootScan false (stripDashLead selector)
     || (treePathTest (stripDashLead selector)
         && boundedNumScan false (stripDashLead selector)) then
    Except.error (invalidSelectorMsg (stripDashLead selector))
  else
    Except.ok (resolveByAria (stripDashLead selector))

/-- The claim's rejection pattern `^[A-Z]+\s*>\s*[A-Z]+.*\d`, following the
spec's words: an uppercase run, `>`, an uppercase run, and a digit somewhere
after (the dot cannot match a newline). -/
def specTreePathDigit (l : List Char) : Bool :=
  match l with
  | c :: rest =>
    if c.isUpper then
      match (rest.dropWhile Char.isUpper).dropWhile isSpaceJS with
      | '>' :: r2 =>
        match r2.dropWhile isSpaceJS with
        | d :: r3 =>
          d.isUpper && ((r3.takeWhile (· ≠ '\n')).any Char.isDigit)
        | [] => false
      | _ => false
    else false
  | [] => false

/-- C3 (amended): after stripping a leading `"- "`, every selector that
contains the word `ROOT` (case-insensitive, word-bounded), or that matches
`^[A-Z]+\s*>\s*[A-Z]+` case-insensitively **and** contains a digit run
delimited by word boundaries (`\b\d+\b`), is rejected by `resolveLocator`
with the descriptive tree-path error and never yields a locator. -/
theorem resolveLocator_rejects_tree_paths (selector : List Char)
    (h : rootScan false (stripDashLead selector) = true
       ∨ (treePathTest (stripDashLead selector) = true
          ∧ boundedNumScan false (stripDashLead selector) = true)) :
    resolveLocator selector
      = Except.error (invalidSelectorMsg (stripDashLead selector)) := by
  unfold resolveLocator
  have hcond : (rootScan false (stripDashLead selector)
      || (treePathTest (stripDashLead selector)
          && boundedNumScan false (stripDashLead selector))) = true := by
    rcases h with h | ⟨h1, h2⟩
    · rw [h, Bool.true_or]
    · rw [h1, h2, Bool.and_self, Bool.or_true]
  rw [if_pos hcond]

/-- Witness for C3: the hallucinated path `"ROOT > DIV > 1"` is rejected. -/
theorem resolveLocator_rejects_tree_paths_witness :
    rootScan false (stripDashLead "ROOT > DIV > 1".data) = true
    ∧ resolveLocator "ROOT > DIV > 1".data
        = Except.error (invalidSelectorMsg (stripDashLead "ROOT > DIV > 1".data)) :=
  ⟨by decide, resolveLocator_rejects_tree_paths "ROOT > DIV > 1".data
    (Or.inl (by decide))⟩

/-- C3 (counterexample): `"DIV > LI2"` matches the claim's pattern
`^[A-Z]+\s*>\s*[A-Z]+.*\d` (its digit is bare), but the code's digit test is
`/\b\d+\b/` — `LI2` has no word boundary before the digit — so the selector
is **not** rejected: resolution falls through to the CSS heuristic and
returns a locator. -/
theorem resolveLocator_spec_pattern_cex :
    specTreePathDigit "DIV > LI2".data = true
    ∧ resolveLocator "DIV > LI2".data
        = Except.ok (Locator.css "DIV > LI2".data) := by
  constructor
  · decide
  · rfl

/- ───────────────────────── prompts and messages ────────────────────────── -/

/-- The fixed lines of `buildSystemPrompt` (src/src/agent/prompts.ts, lines
6-59), up to and including the `## CURRENT TASK` header. -/
def systemPromptLines : List String :=
  ["You are an autonomous AI browser agent. You control a real web browser to complete tasks for the user.",
   "",
   "## YOUR WORKFLOW",
   "Each turn you will receive the current page's accessibility tree (a YAML-like structure showing elements on the page). Based on this, you must:",
   "1. **Observe** the page state (what's visible, what elements are available)",
   "2. **Think** about what to do next to accomplish the goal",
   "3. **Act** by calling exactly ONE tool",
   "",
   "## AVAILABLE INFORMATION",
   "- The accessibility tree shows page elements with their roles (link, button, textbox, heading, etc.) and text labels",
   "- You can see the page URL and title",
   "- You can see your scroll position",
   "",
   "## RULES",
   "- Call exactly ONE tool per turn. Do not call multiple tools at once.",
   "- **CRITICAL**: You MUST call a tool. Do NOT respond with just text.",
   "- If you need user input (e.g. login credentials), use the \"ask_user\" tool.",
   "- NEVER hardcode URLs, selectors, or steps. Always discover them.",
   "- Be methodical: read the page carefully before acting.",
   "- If an element is not visible, try scrolling down to find it.",
   "- **IMPORTANT**: If scrolling commands (up/down) do not change the page state (scroll position stays 0px), STOP scrolling. The page might be using a virtual scroller or be non-scrollable. Try clicking elements or searching instead.",
   "- If a click fails, try a different selector or approach.",
   "- If you get stuck, try going back or navigating to a different page.",
   "- Use \"read_page\" after major state changes to see the updated page.",
   "- Use \"ask_user\" when you genuinely need clarification from the user.",
   "- Use \"done\" when the task is fully completed — include a detailed summary.",
   "",
   "## HANDLING LISTS OF SIMILAR ITEMS",
   "- On listing pages (search results, job boards, product catalogs, etc.), DO NOT try to click generic buttons like \"Apply\", \"Buy\", or \"Откликнуться\" that appear on every item — they will fail because many identical buttons exist.",
   "- Instead: click on the TITLE or LINK of a specific item to navigate to its DETAIL PAGE, then perform the action (apply, buy, etc.) from the detail page.",
   "- After completing the action on one item, use go_back and repeat for the next item.",
   "- This pattern is essential for job sites (hh.ru), shopping (amazon), and any listing with repeated actions.",
   "",
   "## SELECTOR FORMAT",
   "Use the ARIA role and name DIRECTLY from the accessibility tree. The format is: role \"name\"",
   "",
   "Examples from an accessibility tree and the correct selector to use:",
   "- If you see: `- combobox \"Search\"` → use selector: `combobox \"Search\"`",
   "- If you see: `- button \"Submit\"` → use selector: `button \"Submit\"`",
   "- If you see: `- link \"Home\"` → use selector: `link \"Home\"`",
   "- If you see: `- textbox \"Email\"` → use selector: `textbox \"Email\"`",
   "",
   "IMPORTANT:",
   "- Do NOT include the leading \"- \" from the tree — just the role and \"name\"",
   "- Do NOT wrap with extra syntax — just use the role and name as-is",
   "- If text/role selector fails, try: text=Label, placeholder=Placeholder, or CSS like \"#id\"",
   "",
   "## IMPORTANT",
   "- You are looking at REAL websites. Pages may have popups, cookie banners, or CAPTCHAs.",
   "- Always close popups/banners before trying to interact with the main page.",
   "- Be patient with loading — use \"wait\" if the page needs time to load.",
   "- Never fill payment information without user confirmation.",
   "",
   "## CURRENT TASK"]

/-- `buildSystemPrompt(task)` (prompts.ts, lines 5-61). -/
def buildSystemPrompt (task : String) : String :=
  String.intercalate "\n" systemPromptLines ++ "\n" ++ task

/-- `summarizeActions` (prompts.ts, lines 73-76). -/
def summarizeActions (actionDescriptions : List String) : String :=
  if actionDescriptions.length = 0 then ""
  else
    "Previous actions taken:\n"
      ++ String.intercalate "\n"
          (actionDescriptions.enum.map fun p =>
            toString (p.1 + 1) ++ ". " ++ p.2)

/-- `formatObservation` (prompts.ts, lines 66-68). -/
def formatObservation (pageContent : String) (iteration maxIterations : Nat) :
    String :=
  "[Step " ++ toString iteration ++ "/" ++ toString maxIterations
    ++ "]\n\nCurrent page state:\n" ++ pageContent

/-- A tool call as produced by the LLM (src/src/llm/types.ts): id, function
name and raw JSON arguments string. -/
structure ToolCallRec where
  id : String
  name : String
  arguments : String
deriving DecidableEq

/-- The message record of src/src/llm/types.ts (System / User / Assistant /
ToolResult). -/
inductive Msg where
  | system (content : String)
  | user (content : String)
  | assistant (content : Option String) (tool_calls : Option (List ToolCallRec))
  | tool (tool_call_id : String) (content : String)
deriving DecidableEq

/- ───────────────────────── JSON (black-box parse) ──────────────────────── -/

/-- Parsed JSON values. `JSON.parse` itself is a JS-runtime black box and is
modelled as an oracle `String → Option JsonVal` (`none` = parse exception);
numbers are carried in textual form. -/
inductive JsonVal where
  | null
  | bool (b : Bool)
  | num (text : String)
  | str (s : String)
  | arr (elems : List JsonVal)
  | obj (fields : List (String × JsonVal))

/-- JSON string escaping (the cases that occur in our inputs). -/
def escapeJsonStr (s : String) : String :=
  String.mk (s.data.foldr (fun c acc =>
    if c = '"' then '\\' :: '"' :: acc
    else if c = '\\' then '\\' :: '\\' :: acc
    else if c = '\n' then '\\' :: 'n' :: acc
    else if c = '\t' then '\\' :: 't' :: acc
    else if c = '\r' then '\\' :: 'r' :: acc
    else c :: acc) [])

mutual

/-- JS `JSON.stringify` on parsed values. -/
def jsonStringify : JsonVal → String
  | JsonVal.null => "null"
  | JsonVal.bool true => "true"
  | JsonVal.bool false => "false"
  | JsonVal.num t => t
  | JsonVal.str s => "\"" ++ escapeJsonStr s ++ "\""
  | JsonVal.arr xs => "[" ++ String.intercalate "," (jsonStringifyList xs) ++ "]"
  | JsonVal.obj fs =>
    "\x7b" ++ String.intercalate "," (jsonStringifyFields fs) ++ "\x7d"

def jsonStringifyList : List JsonVal → List String
  | [] => []
  | x :: xs => jsonStringify x :: jsonStringifyList xs

def jsonStringifyFields : List (String × JsonVal) → List String
  | [] => []
  | (k, v) :: fs =>
    ("\"" ++ escapeJsonStr k ++ "\":" ++ jsonStringify v)
      :: jsonStringifyFields fs

end

/-- JS `Object.entries` on a parsed JSON value: object fields, indexed array
elements, indexed one-character strings, `[]` for booleans and numbers. -/
def jsEntries : JsonVal → List (String × JsonVal)
  | JsonVal.obj fs => fs
  | JsonVal.arr xs => xs.enum.map fun p => (toString p.1, p.2)
  | JsonVal.str s =>
    s.data.enum.map fun p => (toString p.1, JsonVal.str (String.mk [p.2]))
  | _ => []

/-- `Object.entries(null)` throws a TypeError (caught by the caller's
try/catch); every other parsed value is entries-safe. -/
def jsEntriesOk : JsonVal → Bool
  | JsonVal.null => false
  | _ => true

/- ──────────────────────────── ContextManager ───────────────────────────── -/

/-- The state of `ContextManager` (src/unnamed/part_006): the raw message
log, the task, the compressed action history and the two budgets
(constructor defaults 10 and 8000). -/
structure ContextManager where
  messages : List Msg
  task : String
  actionHistory : List String
  maxHistoryMessages : Nat
  tokenBudget : Nat

/-- Token contribution of one message (`estimateTokens`, part_006 lines
162-175): `ceil(len/4)` for a present content, `ceil(argsLen/4) + 10` per
tool call. -/
def msgTokens : Msg → Nat
  | Msg.system content => (content.length + 3) / 4
  | Msg.user content => (content.length + 3) / 4
  | Msg.assistant content tool_calls =>
    (match content with
     | some s => (s.length + 3) / 4
     | none => 0)
    + (match tool_calls with
       | some tcs =>
         tcs.foldl (fun acc tc => acc + ((tc.arguments.length + 3) / 4 + 10)) 0
       | none => 0)
  | Msg.tool _ content => (content.length + 3) / 4

/-- `ContextManager.estimateTokens` (part_006, lines 162-175). -/
def estimateTokens (messages : List Msg) : Nat :=
  messages.foldl (fun acc m => acc + msgTokens m) 0

/-- Whether the message at index `i` is a ToolResult (JS
`messages[i].role === 'tool'`; out-of-range indexing yields `undefined`,
which is not a tool message). -/
def isToolAt (l : List Msg) (i : Nat) : Bool :=
  match l[i]? with
  | some (Msg.tool _ _) => true
  | _ => false

/-- `ContextManager.findSafeWindowStart` (part_006, lines 120-126): walk
backward from the target start while the message there is a ToolResult. -/
def findSafeWindowStart (messages : List Msg) : Nat → Nat
  | 0 => 0
  | n + 1 =>
    if isToolAt messages (n + 1) then findSafeWindowStart messages n
    else n + 1

/-- `ContextManager.getRecentMessages` (part_006, lines 132-140). -/
def getRecentMessages (cm : ContextManager) : List Msg :=
  if cm.messages.length ≤ cm.maxHistoryMessages then cm.messages
  else
    cm.messages.drop
      (findSafeWindowStart cm.messages
        (cm.messages.length - cm.maxHistoryMessages))

/-- `ContextManager.getMessages` (part_006, lines 33-56): system prompt,
optional action-history summary, sliding window. -/
def getMessages (cm : ContextManager) : List Msg :=
  [Msg.system (buildSystemPrompt cm.task)]
  ++ (if 0 < cm.actionHistory.length
      then [Msg.user (summarizeActions cm.actionHistory)] else [])
  ++ getRecentMessages cm

/-- `ContextManager.compressIfNeeded` (part_006, lines 146-157). -/
def compressIfNeeded (cm : ContextManager) : ContextManager :=
  if cm.tokenBudget < estimateTokens cm.messages
     ∧ cm.maxHistoryMessages < cm.messages.length then
    { cm with
      messages := cm.messages.drop
        (findSafeWindowStart cm.messages
          (cm.messages.length - cm.maxHistoryMessages)) }
  else cm

/-- `ContextManager.addObservation` (part_006, lines 61-67). -/
def addObservation (cm : ContextManager) (content : String) : ContextManager :=
  compressIfNeeded { cm with messages := cm.messages ++ [Msg.user content] }

/-- `ContextManager.addAssistantMessage` (part_006, lines 72-78). -/
def addAssistantMessage (cm : ContextManager) (content : Option String)
    (toolCalls : Option (List ToolCallRec)) : ContextManager :=
  { cm with messages := cm.messages ++ [Msg.assistant content toolCalls] }

/-- JS `s.slice(0, n)`. -/
def strTake (s : String) (n : Nat) : String := String.mk (s.data.take n)

/-- The compact entry pushed onto the action history by `addToolResult`
(part_006, lines 90-99): `name(k1=v1, k2=v2) → prefix`, falling back to
`name → prefix` when `JSON.parse` or `Object.entries` throws. The prefix is
300 characters for results longer than 1000 characters, else 100. -/
def actionHistoryEntry (jsonParse : String → Option JsonVal)
    (tc : ToolCallRec) (result : String) : String :=
  let summaryLen := if 1000 < result.length then 300 else 100
  match jsonParse tc.arguments with
  | some v =>
    if jsEntriesOk v then
      tc.name ++ "("
        ++ String.intercalate ", "
            ((jsEntries v).map fun kv => kv.1 ++ "=" ++ jsonStringify kv.2)
        ++ ") → " ++ strTake result summaryLen
    else tc.name ++ " → " ++ strTake result summaryLen
  | none => tc.name ++ " → " ++ strTake result summaryLen

/-- `ContextManager.addToolResult` (part_006, lines 83-100). -/
def addToolResult (jsonParse : String → Option JsonVal) (cm : ContextManager)
    (tc : ToolCallRec) (result : String) : ContextManager :=
  { cm with
    messages := cm.messages ++ [Msg.tool tc.id result],
    actionHistory :=
      cm.actionHistory ++ [actionHistoryEntry jsonParse tc result] }

/-- Index of the most recent User message, if any. -/
def lastUserIdx : List Msg → Option Nat
  | [] => none
  | m :: rest =>
    match lastUserIdx rest with
    | some i => some (i + 1)
    | none =>
      match m with
      | Msg.user _ => some 0
      | _ => none

/-- `ContextManager.removeLastObservation` (part_006, lines 106-113): remove
the most recent User message, if any. -/
def removeLastObservation (cm : ContextManager) : ContextManager :=
  match lastUserIdx cm.messages with
  | some i => { cm with messages := cm.messages.eraseIdx i }
  | none => cm

/- ──────────────── well-formedness of the sliding window (C4) ───────────── -/

/-- The tool-call ids carried by the Assistant message at index `i` (empty
for any other message). -/
def assistantIdsAt (l : List Msg) (i : Nat) : List String :=
  match l[i]? with
  | some (Msg.assistant _ (some tcs)) => tcs.map ToolCallRec.id
  | _ => []

/-- The index of the nearest non-ToolResult message strictly before `i`. -/
def ownerIdx (l : List Msg) : Nat → Option Nat
  | 0 => none
  | n + 1 => if isToolAt l n then ownerIdx l n else some n

/-- Well-formedness at one index: if the message at `i` is a ToolResult,
its nearest preceding non-ToolResult message exists and is an Assistant
whose tool_calls contain the matching id. -/
def wfAt (l : List Msg) (i : Nat) : Bool :=
  match l[i]? with
  | some (Msg.tool cid _) =>
    match ownerIdx l i with
    | some j => decide (cid ∈ assistantIdsAt l j)
    | none => false
  | _ => true

/-- A well-formed message log, which is what the add operations produce:
each ToolResult is appended right after the Assistant carrying its ToolCall
(possibly behind sibling ToolResults of the same Assistant). -/
def wfLog (l : List Msg) : Bool :=
  (List.range l.length).all (wfAt l)

theorem ownerIdx_lt {l : List Msg} :
    ∀ {i j : Nat}, ownerIdx l i = some j → j < i := by
  intro i
  induction i with
  | zero => intro j h; exact Option.noConfusion h
  | succ n ih =>
    intro j h
    unfold ownerIdx at h
    by_cases ht : isToolAt l n = true
    · rw [if_pos ht] at h
      exact Nat.lt_trans (ih h) (Nat.lt_succ_self n)
    · rw [if_neg ht] at h
      injection h with h
      omega

theorem ownerIdx_not_tool {l : List Msg} :
    ∀ {i j : Nat}, ownerIdx l i = some j → isToolAt l j = false := by
  intro i
  induction i with
  | zero => intro j h; exact Option.noConfusion h
  | succ n ih =>
    intro j h
    unfold ownerIdx at h
    by_cases ht : isToolAt l n = true
    · rw [if_pos ht] at h
      exact ih h
    · rw [if_neg ht] at h
      injection h with h
      subst h
      exact Bool.not_eq_true _ ▸ ht

theorem ownerIdx_between_tool {l : List Msg} :
    ∀ {i j : Nat}, ownerIdx l i = some j →
      ∀ k, j < k → k < i → isToolAt l k = true := by
  intro i
  induction i with
  | zero => intro j h; exact Option.noConfusion h
  | succ n ih =>
    intro j h k hjk hki
    unfold ownerIdx at h
    by_cases ht : isToolAt l n = true
    · rw [if_pos ht] at h
      by_cases hk : k = n
      · subst hk; exact ht
      · exact ih h k hjk (by omega)
    · rw [if_neg ht] at h
      injection h with h
      omega

theorem findSafeWindowStart_ok (l : List Msg) (n : Nat) :
    findSafeWindowStart l n = 0
    ∨ isToolAt l (findSafeWindowStart l n) = false := by
  induction n with
  | zero => exact Or.inl rfl
  | succ m ih =>
    unfold findSafeWindowStart
    by_cases ht : isToolAt l (m + 1) = true
    · rw [if_pos ht]
      exact ih
    · rw [if_neg ht]
      exact Or.inr (by simpa using ht)

theorem getRecentMessages_drop (cm : ContextManager) :
    ∃ s, getRecentMessages cm = cm.messages.drop s
      ∧ (s = 0 ∨ isToolAt cm.messages s = false) := by
  unfold getRecentMessages
  by_cases h : cm.messages.length ≤ cm.maxHistoryMessages
  · exact ⟨0, by rw [if_pos h, List.drop_zero], Or.inl rfl⟩
  · exact ⟨findSafeWindowStart cm.messages
      (cm.messages.length - cm.maxHistoryMessages),
      by rw [if_neg h], findSafeWindowStart_ok _ _⟩

/-- C4: for every well-formed message log (the shape produced by the add
operations), the list returned by `getMessages` contains no orphaned
ToolResult: every ToolResult in the returned list has a strictly earlier
Assistant message in the same list whose tool_calls include the matching
id. In particular the sliding window never begins on a ToolResult. -/
theorem getMessages_no_orphan_tool_results (cm : ContextManager)
    (hwf : wfLog cm.messages = true) :
    ∀ i cid content, (getMessages cm)[i]? = some (Msg.tool cid content) →
      ∃ j, j < i ∧ cid ∈ assistantIdsAt (getMessages cm) j := by
  obtain ⟨s, hrec, hs⟩ := getRecentMessages_drop cm
  intro i cid content hget
  set pre := [Msg.system (buildSystemPrompt cm.task)]
      ++ (if 0 < cm.actionHistory.length
          then [Msg.user (summarizeActions cm.actionHistory)] else [])
    with hpre
  have hform : getMessages cm = pre ++ cm.messages.drop s := by
    rw [getMessages, hrec, hpre, List.append_assoc]
  rw [hform] at hget
  by_cases hi : i < pre.length
  · exfalso
    rw [List.getElem?_append, if_pos hi] at hget
    by_cases hh : 0 < cm.actionHistory.length
    · rw [hpre, if_pos hh] at hget hi
      simp only [List.length_append, List.length_cons, List.length_nil] at hi
      interval_cases i <;> simp at hget
    · rw [hpre, if_neg hh] at hget hi
      simp only [List.length_append, List.length_cons, List.length_nil] at hi
      interval_cases i
      simp at hget
  · push_neg at hi
    rw [List.getElem?_append, if_neg (by omega), List.getElem?_drop] at hget
    set t := i - pre.length with ht
    set a := s + t with ha
    have hlt : a < cm.messages.length := by
      by_contra hge
      push_neg at hge
      rw [List.getElem?_eq_none hge] at hget
      exact Option.noConfusion hget
    have hall : wfAt cm.messages a = true :=
      List.all_eq_true.mp hwf a (List.mem_range.mpr hlt)
    unfold wfAt at hall
    rw [hget] at hall
    cases howner : ownerIdx cm.messages a with
    | none => rw [howner] at hall; exact absurd hall (by simp)
    | some j =>
      rw [howner] at hall
      have hmem : cid ∈ assistantIdsAt cm.messages j := of_decide_eq_true hall
      have hjlt : j < a := ownerIdx_lt howner
      have hjs : s ≤ j := by
        by_contra hjs'
        push_neg at hjs'
        have hts : isToolAt cm.messages s = true := by
          rcases Nat.lt_or_ge s a with hlt2 | hge2
          · exact ownerIdx_between_tool howner s hjs' hlt2
          · have hsa : a = s := by omega
            unfold isToolAt
            rw [← hsa, hget]
        rcases hs with h0 | hnt
        · omega
        · rw [hts] at hnt; exact Bool.noConfusion hnt
      refine ⟨pre.length + (j - s), by omega, ?_⟩
      have hj' : (getMessages cm)[pre.length + (j - s)]? = cm.messages[j]? := by
        rw [hform, List.getElem?_append, if_neg (by omega),
          Nat.add_sub_cancel_left, List.getElem?_drop]
        congr 1
        omega
      have heq : assistantIdsAt (getMessages cm) (pre.length + (j - s))
          = assistantIdsAt cm.messages j := by
        unfold assistantIdsAt
        rw [hj']
      rw [heq]
      exact hmem

/-- A small concrete context for the C4 witness: an observation, an
assistant tool call, its tool result and a fresh observation, with a window
small enough that the target start falls on the tool result. -/
def demoCtx : ContextManager :=
  { messages :=
      [Msg.user "obs1",
       Msg.assistant (some "ok") (some [⟨"call_1", "click", "x"⟩]),
       Msg.tool "call_1" "Clicked",
       Msg.user "obs2"],
    task := "demo",
    actionHistory := ["click → Clicked"],
    maxHistoryMessages := 2,
    tokenBudget := 8000 }

/-- Witness for C4: the concrete log is well-formed and its window keeps the
owning Assistant next to the ToolResult. -/
theorem getMessages_no_orphan_tool_results_witness :
    wfLog demoCtx.messages = true
    ∧ ∀ i cid content,
        (getMessages demoCtx)[i]? = some (Msg.tool cid content) →
        ∃ j, j < i ∧ cid ∈ assistantIdsAt (getMessages demoCtx) j :=
  ⟨by decide, getMessages_no_orphan_tool_results demoCtx (by decide)⟩

/- ──────────────────────────── ToolExecutor ─────────────────────────────── -/

/-- The result record returned by `ToolExecutor.execute`
(src/unnamed/part_002, lines 11-17). -/
structure ToolExecutionResult where
  result : String
  isDone : Bool
  doneSummary : Option String
  needsUserInput : Bool
  userQuestion : Option String
deriving DecidableEq

/-- Externally visible effects of one `execute` call: the security-confirm
prompt, an underlying browser/extractor operation, the ask-user prompt. -/
inductive ExecEffect where
  | confirmPrompt
  | browserOp (toolName : String)
  | askUserPrompt (question : String)
deriving DecidableEq

/-- One tool schema of the tool-definitions module (concatenated inside
src/src/utils/logger.ts, lines 183-404): the function name and the
`required` parameter names. The prose `description` strings and the
JSON-Schema `properties` shapes never flow into any computation of the
executor and are not carried. -/
structure ToolDefinition where
  fname : String
  required : List String
deriving DecidableEq

/-- `toolDefinitions` (src/src/utils/logger.ts, lines 189-404): the twelve
tool schemas exposed to the LLM, in source order. -/
def toolDefinitions : List ToolDefinition :=
  [⟨"navigate", ["url"]⟩,
   ⟨"click", ["selector"]⟩,
   ⟨"type", ["selector", "text"]⟩,
   ⟨"scroll", ["direction"]⟩,
   ⟨"read_page", []⟩,
   ⟨"go_back", []⟩,
   ⟨"select_option", ["selector", "value"]⟩,
   ⟨"press_key", ["key"]⟩,
   ⟨"hover", ["selector"]⟩,
   ⟨"wait", ["ms"]⟩,
   ⟨"ask_user", ["question"]⟩,
   ⟨"done", ["summary"]⟩]

/-- `toolDefinitions.map(t => t.function.name)`, as joined into the
unknown-tool message of `execute` (part_002, line 165). -/
def toolDefinitionNames : List String :=
  toolDefinitions.map ToolDefinition.fname

/-- The black-box collaborators of one `execute` call: `jsonParse` is the
JS `JSON.parse`; `pageContext` is what `getPageContextForSecurity`
returned; `confirmAnswer` is the user's answer when a confirm prompt is
shown; `actionOutcome` gives, per tool name, the result string (or thrown
exception) of the underlying `BrowserActions`/`PageExtractor` operation
applied to the call's arguments; `askAnswer` is the ask-user callback's
outcome. -/
structure ExecEnv where
  jsonParse : String → Option JsonVal
  pageContext : String
  confirmAnswer : String
  actionOutcome : String → Except String String
  askAnswer : Except String String

/-- JS property access `obj.key` on a parsed JSON value. -/
def jsField (v : JsonVal) (key : String) : Option JsonVal :=
  match v with
  | JsonVal.obj fields => (fields.find? (fun kv => kv.1 == key)).map Prod.snd
  | _ => none

/-- A field read as the string the TS code treats it as (`args.summary`,
`args.question`); an absent field (`undefined`) displays as "undefined". -/
def jsFieldAsString (v : JsonVal) (key : String) : String :=
  match jsField v key with
  | some (JsonVal.str s) => s
  | some w => jsonStringify w
  | none => "undefined"

/-- The ten tool names routed to a browser/extractor operation by the
switch of `execute` (part_002, lines 81-140). -/
def browserToolNames : List String :=
  ["navigate", "click", "type", "scroll", "read_page", "go_back",
   "select_option", "press_key", "hover", "wait"]

/-- `ToolExecutor.execute` (part_002, lines 53-179), with its effect trace.
Parse the arguments (an invalid JSON string returns immediately), run the
security check, then dispatch: the ten browser tools run their underlying
operation inside try/catch (a thrown error is narrated as
`Tool "name" execution error: …`), `ask_user` asks the user, `done` ends
the run, anything else reports the known tool names. -/
def executeTool (env : ExecEnv) (tc : ToolCallRec) :
    ToolExecutionResult × List ExecEffect :=
  match env.jsonParse tc.arguments with
  | none =>
    ({ result := "Error: Invalid JSON arguments for tool \"" ++ tc.name
         ++ "\": " ++ tc.arguments,
       isDone := false, doneSummary := none,
       needsUserInput := false, userQuestion := none }, [])
  | some args =>
    let checked := checkAction env.confirmAnswer tc.name tc.arguments
      env.pageContext
    let effs := if checked.2 then [ExecEffect.confirmPrompt] else []
    if !checked.1 then
      ({ result := "Action was blocked by user (security check). Try a different approach or ask the user.",
         isDone := false, doneSummary := none,
         needsUserInput := false, userQuestion := none }, effs)
    else if browserToolNames.contains tc.name then
      match env.actionOutcome tc.name with
      | Except.ok r =>
        ({ result := r, isDone := false, doneSummary := none,
           needsUserInput := false, userQuestion := none },
         effs ++ [ExecEffect.browserOp tc.name])
      | Except.error m =>
        ({ result := "Tool \"" ++ tc.name ++ "\" execution error: " ++ m,
           isDone := false, doneSummary := none,
           needsUserInput := false, userQuestion := none },
         effs ++ [ExecEffect.browserOp tc.name])
    else if tc.name = "ask_user" then
      match env.askAnswer with
      | Except.ok answer =>
        ({ result := "User answered: " ++ answer, isDone := false,
           doneSummary := none, needsUserInput := true,
           userQuestion := some (jsFieldAsString args "question") },
         effs ++ [ExecEffect.askUserPrompt (jsFieldAsString args "question")])
      | Except.error m =>
        ({ result := "Tool \"ask_user\" execution error: " ++ m,
           isDone := false, doneSummary := none,
           needsUserInput := false, userQuestion := none },
         effs ++ [ExecEffect.askUserPrompt (jsFieldAsString args "question")])
    else if tc.name = "done" then
      ({ result := jsFieldAsString args "summary", isDone := true,
         doneSummary := some (jsFieldAsString args "summary"),
         needsUserInput := false, userQuestion := none }, effs)
    else
      ({ result := "Unknown tool: \"" ++ tc.name ++ "\". Available tools: "
           ++ String.intercalate ", " toolDefinitionNames,
         isDone := false, doneSummary := none,
         needsUserInput := false, userQuestion := none }, effs)

/-- C10: when the arguments string is not valid JSON, `execute` immediately
returns an error result naming the tool and the malformed arguments, with
`isDone = false` and `needsUserInput = false`, and produces no effect: the
security guard is not consulted and no browser action runs, so the state
observed by later operations is unchanged. -/
theorem executeTool_invalid_json (env : ExecEnv) (tc : ToolCallRec)
    (h : env.jsonParse tc.arguments = none) :
    executeTool env tc
      = ({ result := "Error: Invalid JSON arguments for tool \"" ++ tc.name
             ++ "\": " ++ tc.arguments,
           isDone := false, doneSummary := none,
           needsUserInput := false, userQuestion := none }, []) := by
  unfold executeTool
  rw [h]

/-- An environment whose `JSON.parse` always throws, for the C10 witness. -/
def demoEnvBadJson : ExecEnv :=
  { jsonParse := fun _ => none,
    pageContext := "Example (https://example.com)",
    confirmAnswer := "y",
    actionOutcome := fun _ => Except.ok "ok",
    askAnswer := Except.ok "ok" }

/-- Witness for C10 at a concrete malformed call. -/
theorem executeTool_invalid_json_witness :
    demoEnvBadJson.jsonParse "selector: button" = none
    ∧ executeTool demoEnvBadJson ⟨"call_9", "click", "selector: button"⟩
      = ({ result := "Error: Invalid JSON arguments for tool \"click\": selector: button",
           isDone := false, doneSummary := none,
           needsUserInput := false, userQuestion := none }, []) := by
  refine ⟨rfl, ?_⟩
  rw [executeTool_invalid_json demoEnvBadJson
    ⟨"call_9", "click", "selector: button"⟩ rfl]
  rfl

/- ─────────────── BrowserAgent.run: the tool-call loop body ─────────────── -/

/-- The action descriptor `"name(argsJson)"` (part_004, line 312). -/
def toolDescOf (tc : ToolCallRec) : String :=
  tc.name ++ "(" ++ tc.arguments ++ ")"

/-- The repetition warning injected for a stuck action (part_004, line
315). -/
def stuckWarning (toolName : String) : String :=
  "You are repeating the action \"" ++ toolName
    ++ "\" with the same arguments on the same page, which seems ineffective. STOP. Try a different approach (search, tab navigation, or ask_user)."

/-- State after one iteration of the tool-call loop body. -/
structure ToolStepResult where
  ctx : ContextManager
  recentActions : List RecentAction
  executedBrowserAction : Bool
  isDone : Bool

/-- One iteration of the tool-call loop in `BrowserAgent.run` (part_004,
lines 310-341): build the descriptor, run loop detection — a stuck call
records the warning as its ToolResult and skips execution — otherwise push
the (descriptor, url) pair (evicting the oldest entry past ten), execute,
and record the executor's result. `exec` supplies the executor's outcome
for the call. -/
def runToolCallStep (jsonParse : String → Option JsonVal)
    (ctx : ContextManager) (recentActions : List RecentAction)
    (tc : ToolCallRec) (currentUrl : String)
    (exec : ToolExecutionResult) : ToolStepResult :=
  if isStuck recentActions (toolDescOf tc) currentUrl then
    { ctx := addToolResult jsonParse ctx tc (stuckWarning tc.name),
      recentActions := recentActions,
      executedBrowserAction := false,
      isDone := false }
  else
    let recent1 := recentActions ++ [⟨toolDescOf tc, currentUrl⟩]
    let recent2 := if 10 < recent1.length then recent1.drop 1 else recent1
    { ctx := addToolResult jsonParse ctx tc exec.result,
      recentActions := recent2,
      executedBrowserAction := true,
      isDone := exec.isDone }

/-- C9: when the loop detector flags the proposed call as stuck, the loop
body appends exactly one ToolResult — the repetition warning — for that
call, executes no browser operation, and leaves `recentActions` unchanged
(the proposed pair is not appended). -/
theorem runToolCallStep_stuck (jsonParse : String → Option JsonVal)
    (ctx : ContextManager) (recentActions : List RecentAction)
    (tc : ToolCallRec) (currentUrl : String) (exec : ToolExecutionResult)
    (h : isStuck recentActions (toolDescOf tc) currentUrl = true) :
    (runToolCallStep jsonParse ctx recentActions tc currentUrl exec).ctx.messages
      = ctx.messages ++ [Msg.tool tc.id (stuckWarning tc.name)]
    ∧ (runToolCallStep jsonParse ctx recentActions tc currentUrl
        exec).executedBrowserAction = false
    ∧ (runToolCallStep jsonParse ctx recentActions tc currentUrl
        exec).recentActions = recentActions := by
  unfold runToolCallStep
  rw [if_pos h]
  exact ⟨rfl, rfl, rfl⟩

/-- Witness for C9: the third consecutive identical click is flagged and
the loop body only injects the warning. -/
theorem runToolCallStep_stuck_witness :
    isStuck [⟨toolDescOf ⟨"c1", "click", "x"⟩, "u"⟩,
             ⟨toolDescOf ⟨"c1", "click", "x"⟩, "u"⟩]
      (toolDescOf ⟨"c1", "click", "x"⟩) "u" = true
    ∧ (runToolCallStep (fun _ => none) demoCtx
        [⟨toolDescOf ⟨"c1", "click", "x"⟩, "u"⟩,
         ⟨toolDescOf ⟨"c1", "click", "x"⟩, "u"⟩]
        ⟨"c1", "click", "x"⟩ "u"
        ⟨"ok", false, none, false, none⟩).executedBrowserAction = false :=
  ⟨by decide,
   (runToolCallStep_stuck (fun _ => none) demoCtx
      [⟨toolDescOf ⟨"c1", "click", "x"⟩, "u"⟩,
       ⟨toolDescOf ⟨"c1", "click", "x"⟩, "u"⟩]
      ⟨"c1", "click", "x"⟩ "u" ⟨"ok", false, none, false, none⟩
      (by decide)).2.1⟩
